import Mathlib

/-!
# Verification of the FastGET dispatch engine

Shallow embedding of `src/fastget/client.py` (and, for the refinement claim,
`src/src/fastget/client.py`): the chunker, the worker (`Requester`), the
dispatch loop of `FastGET.get`, the configuration defaulting of the constructor,
and the Python name-scoping facts relevant to the `logger` binding.

Conventions of the embedding:
* A request is a pair `(id, url) : Nat × String`; a delivered result is a pair
  `(id, data) : Nat × String` (the parsed JSON value is kept abstract as the
  body string, since the code treats it opaquely).
* The worker pool and completion callbacks are modelled by an explicit state
  machine: submitted chunks sit in `inFlight` (their eventual result value),
  and a `schedule : List Nat` decides how many in-flight chunk results the
  `_future_done_callback` appends to the `responses` buffer at each iteration
  boundary of the dispatch loop.  Callbacks never touch `urls_in_queue`, so
  delivering at loop boundaries captures every count-observable interleaving.
* The logging statements of `FastGET.get` are treated as no-ops by the
  dispatch-loop model; the fact that they actually raise `NameError` (the name
  `logger` is a local of `__init__`) is modelled separately by the
  name-resolution embedding below.
-/

namespace FastGETSpec

/-- A request: `(id, url)`, as in the `(id, url)` tuples of `client.py`. -/
abbrev Req := Nat × String

/-- A delivered per-request result: `(id, data)`, as returned at
`client.py:176` (`return (id_, response_json)`). -/
abbrev Res := Nat × String

/-! ## The chunker (`FastGET._chunker`, client.py:140-144)

`_chunker` pulls one element `first` from the iterator and yields the lazy
chunk `chain([first], islice(iterator, size - 1))`, i.e. chunks of exactly
`size` consecutive elements, the last one possibly short.  `chunkListF` is the
fully-consumed value of that generator, written with an explicit fuel argument
(the fuel `l.length` always suffices, each chunk consuming at least one
element) so that every definition computes by `rfl`. -/

/-- Fuel-indexed chunker body: one recursive step per emitted chunk. -/
def chunkListF (size : Nat) : Nat → List α → List (List α)
  | _, [] => []
  | 0, _ :: _ => []
  | fuel + 1, x :: xs => (x :: xs.take (size - 1)) :: chunkListF size fuel (xs.drop (size - 1))

/-- Value of `FastGET._chunker(iterable, size)` fully consumed in order: the list of
chunks of `size` consecutive elements, the last possibly short. -/
def chunkList (size : Nat) (l : List α) : List (List α) :=
  chunkListF size l.length l

/-! ## The worker (`Requester`, client.py:151-176), faithful error-level model

`_make_request_async` performs `session.get(url)` and then tries
`await response.json()`.  The possible terminations of the transport are
modelled by `Transport`.  The crucial source facts embedded here:

* on a parseable response the function returns the two-tuple
  `(id_, response_json)` — the HTTP status code is discarded (client.py:176);
* on a JSON-parse failure the `except` block executes `logger.exception(e)`,
  but `logger` is not bound in any enclosing scope of `_make_request_async`,
  so the handler itself raises `NameError` (and even with a logger the
  subsequent `return` would hit the unbound local `response_json`);
* a connection failure or timeout is raised by `session.get` / the transport
  *outside* the `try`, so it propagates out of the coroutine unhandled.

`asyncio.gather` (client.py:166) is called without `return_exceptions=True`,
so if any task raises, `gather` — and hence `Requester.run` — raises instead
of returning a list.  Which failing task has its exception propagate is
schedule-dependent; the model deterministically picks the first failing task
in list order (the claims depend only on whether an exception escapes). -/

/-- Termination of the HTTP transport for one GET. -/
inductive Transport where
  | response (status : Nat) (body : String) (parseable : Bool)
  | connectError (detail : String)
  | timeoutError
  deriving DecidableEq, Repr

/-- Python exceptions that can escape the request coroutine of the worker. -/
inductive PyError where
  | nameError (missing : String)
  | clientConnectorError (detail : String)
  | timeoutError
  deriving DecidableEq, Repr

/-- Did the transport deliver a well-formed response with a parseable body? -/
def Transport.parsedOk : Transport → Bool
  | .response _ _ true => true
  | _ => false

/-- Body of a delivered response (irrelevant default otherwise). -/
def Transport.bodyOf : Transport → String
  | .response _ b _ => b
  | _ => ""

/-- Embedding of `Requester._make_request_async` (client.py:169-176) on one request whose
transport terminates as `t`. -/
def Requester.makeRequestAsync (id_ : Nat) (t : Transport) : Except PyError (Nat × String) :=
  match t with
  | .response _status body true => .ok (id_, body)
  | .response _ _ false => .error (.nameError ("logger"))
  | .connectError d => .error (.clientConnectorError d)
  | .timeoutError => .error .timeoutError

/-- Model of `asyncio.gather(*tasks)` with the default `return_exceptions=False`:
either every task succeeded and the results are returned in task order, or
the exception of some task propagates (the model picks the first in list order). -/
def asyncioGather : List (Except PyError (Nat × String)) → Except PyError (List (Nat × String))
  | [] => .ok []
  | .error e :: _ => .error e
  | .ok r :: rest =>
      match asyncioGather rest with
      | .ok rs => .ok (r :: rs)
      | .error e => .error e

/-- Embedding of `Requester.run` / `_make_requests_async` (client.py:151-167): one task per
request of the chunk, gathered.  The transport termination of each request is given
alongside its id. -/
def Requester.run (chunk : List (Nat × Transport)) : Except PyError (List (Nat × String)) :=
  asyncioGather (chunk.map fun p => Requester.makeRequestAsync p.1 p.2)

/-! ## The dispatch loop (`FastGET.get`, client.py:93-127)

State machine for one `get` call.  `inFlight` holds, per submitted-but-not-
delivered single chunk, the result value its future will eventually carry;
under the completion assumption of the correctness claims this is one outcome
per request of the chunk, ids preserved (`workerResult` with a data oracle
`f`).  `responses` is the instance buffer `self.responses`, `processed` the
instance counter `self.total_processed_requests`, `inQueue` the local
`urls_in_queue` (an `Int`, as in Python), `yielded` the accumulated yields.
`maxInQueue` is a proof-side high-water mark of `inQueue`, updated at every
single-chunk submission, and `submittedTotal` counts submitted requests. -/

/-- The value `Requester.run` eventually delivers for a chunk, under the
assumption that every submitted invocation completes with one outcome per
request (data given by the oracle `f`). -/
def workerResult (f : Nat → String → String) (chunk : List Req) : List Res :=
  chunk.map fun p => (p.1, f p.1 p.2)

/-- Configuration of one `FastGET` instance (sizes as used by `get`). -/
structure Config where
  single : Nat
  pool : Nat
  qmax : Int
  deriving Repr

/-- Session state of one `FastGET.get` call. -/
structure DispatchState where
  inFlight : List (List Res)
  responses : List Res
  inQueue : Int
  maxInQueue : Int
  processed : Nat
  submittedTotal : Nat
  yielded : List Res
  deriving Repr, DecidableEq

/-- State at the start of a `get` call on a fresh client. -/
def initState : DispatchState :=
  { inFlight := [], responses := [], inQueue := 0, maxInQueue := 0,
    processed := 0, submittedTotal := 0, yielded := [] }

/-- Submission step `executor.submit(Requester.run, urls)` + `urls_in_queue += len(urls)`
(client.py:106-108) for one single chunk. -/
def submitChunk (f : Nat → String → String) (st : DispatchState) (c : List Req) :
    DispatchState :=
  { st with inFlight := st.inFlight ++ [workerResult f c],
            inQueue := st.inQueue + c.length,
            maxInQueue := max st.maxInQueue (st.inQueue + c.length),
            submittedTotal := st.submittedTotal + c.length }

/-- Callback `_future_done_callback` (client.py:146-148) firing for the `k` oldest
outstanding futures: their results are extended onto `self.responses`. -/
def deliver (k : Nat) (st : DispatchState) : DispatchState :=
  { st with inFlight := st.inFlight.drop k,
            responses := st.responses ++ (st.inFlight.take k).flatten }

/-- The drain step `for _ in range(len(self.responses)): ... yield
self.responses.pop()` (client.py:110-113): pops the whole buffer from the
end, yielding in reverse buffer order, decrementing `urls_in_queue` and
incrementing `total_processed_requests` once per pop. -/
def drain (st : DispatchState) : DispatchState :=
  { st with yielded := st.yielded ++ st.responses.reverse,
            responses := [],
            inQueue := st.inQueue - st.responses.length,
            processed := st.processed + st.responses.length }

/-- One iteration of `for urls_chunk in urls_chunks` (client.py:100-118),
fuel-indexed (each iteration consumes at least one input element, so
`input.length` fuel always suffices).

If `urls_in_queue < queue_max_size`, the pool chunk — `first` plus the next
`pool - 1` elements, as produced by the lazy chunker — is split into single
chunks and each is submitted.  Otherwise the body is skipped; the unconsumed
lazy chunk leaves the shared iterator positioned after `first`, so exactly the
first element of the chunk is dropped from the stream.  Either way the iteration
ends with the callback deliveries of this boundary followed by the drain. -/
def runPoolF (cfg : Config) (f : Nat → String → String) :
    Nat → List Nat → List Req → DispatchState → DispatchState
  | 0, _, _, st => st
  | _ + 1, _, [], st => st
  | fuel + 1, sched, r :: rs, st =>
      if st.inQueue < cfg.qmax then
        let st1 := (chunkList cfg.single (r :: rs.take (cfg.pool - 1))).foldl (submitChunk f) st
        runPoolF cfg f fuel sched.tail (rs.drop (cfg.pool - 1))
          (drain (deliver (sched.headD 0) st1))
      else
        runPoolF cfg f fuel sched.tail rs (drain (deliver (sched.headD 0) st))

/-- The whole `for urls_chunk in urls_chunks` loop. -/
def runPool (cfg : Config) (f : Nat → String → String) (sched : List Nat)
    (input : List Req) (st : DispatchState) : DispatchState :=
  runPoolF cfg f input.length sched input st

/-- By the end of the call every submitted invocation has completed (the
completion assumption): all remaining in-flight results reach the buffer. -/
def deliverAll (st : DispatchState) : DispatchState :=
  { st with inFlight := [], responses := st.responses ++ st.inFlight.flatten }

/-- One pop of the final drain loop (client.py:120-124). -/
def popOne (st : DispatchState) : DispatchState :=
  { st with yielded := st.yielded ++ st.responses.getLast?.toList,
            responses := st.responses.dropLast,
            inQueue := st.inQueue - 1,
            processed := st.processed + 1 }

/-- The final `while urls_in_queue:` loop (client.py:120-124), fuel-indexed:
pops while the counter is nonzero and the buffer nonempty.  (When the buffer
is empty but the counter nonzero the Python loop spins forever waiting for a
callback; with all deliveries already made the model stops there, leaving
`inQueue ≠ 0` as the marker of that divergence.) -/
def finalPops : Nat → DispatchState → DispatchState
  | 0, st => st
  | fuel + 1, st =>
      if st.inQueue = 0 then st
      else if st.responses.isEmpty then st
      else finalPops fuel (popOne st)

/-- Input exhausted: all outstanding work completes and is drained. -/
def finishGet (st : DispatchState) : DispatchState :=
  let st1 := deliverAll st
  finalPops st1.responses.length st1

/-- A complete `FastGET.get` call on a fresh client (logging as no-ops):
dispatch loop over the input, then the final drain, under the assumption that
every submitted worker invocation eventually completes and delivers one
outcome per request. -/
def runGet (cfg : Config) (f : Nat → String → String) (sched : List Nat)
    (input : List Req) : DispatchState :=
  finishGet (runPool cfg f sched input initState)

/-! ## Entry of `FastGET.get`: reuse guard and name resolution
(client.py:82-91)

The generator body starts with the reuse guard
`if self.responses or self.total_processed_requests: raise Exception(...)`
and then executes `logger.info(...)`.  Python resolves `logger` there against
the local scope of `get` (which at that point has bound only `self` and
`ids_and_urls`) and the global scope of the module; `logger` is assigned only as a
local variable of `FastGET.__init__` (client.py:38), so the lookup fails with
`NameError` before `urls_in_queue` is initialised or anything is submitted.
Generator semantics: none of this runs at the call to `get` itself, only on
the first consumption of the returned generator. -/

/-- Names bound at module scope of `src/fastget/client.py`: the imports
(client.py:1-9) and the two class statements. -/
def clientModuleNames : List String :=
  ["asyncio", "Iterable", "concurrent", "itertools", "logging", "os",
   "List", "Tuple", "Generator", "Optional", "aiohttp", "FastGET", "Requester"]

/-- Names assigned in the local scope of `FastGET.__init__`
(client.py:24-40): the parameters and the local `logger`. -/
def initLocalNames : List String :=
  ["self", "num_workers", "single_submit_size", "pool_submit_size",
   "queue_max_size", "debug", "logger"]

/-- Local names of `FastGET.get` already bound when line 87
(`logger.info(...)`) executes: just the parameters. -/
def getLocalNamesAtLogging : List String := ["self", "ids_and_urls"]

/-- Python name resolution at client.py:87: local scope of `get`, then module
globals (builtins hold no `logger`). -/
def resolvesAtGetLogging (n : String) : Bool :=
  n ∈ getLocalNamesAtLogging || n ∈ clientModuleNames

/-- How the first consumption of a `get` generator begins. -/
inductive GetStartOutcome where
  | usageError
  | nameError
  | dispatchLoop
  deriving DecidableEq, Repr

/-- Truthiness of `self.responses or self.total_processed_requests`
(client.py:82): a nonempty list or a nonzero integer. -/
def reuseGuardFires (st : DispatchState) : Bool :=
  !st.responses.isEmpty || !(st.processed == 0)

/-- First steps of the `get` generator body (client.py:82-91), in source
order: the reuse guard, then the `logger.info` lines.  Raising leaves the
instance state untouched, hence the returned state is the input state. -/
def getStart (st : DispatchState) : GetStartOutcome × DispatchState :=
  if reuseGuardFires st then (.usageError, st)
  else if resolvesAtGetLogging "logger" then (.dispatchLoop, st)
  else (.nameError, st)

/-! ## Constructor defaulting (`FastGET.__init__`, client.py:24-37) and the
raising behaviour of the chunker for non-positive sizes -/

/-- Pythonic `x or default` on integers: `0` is falsy, every other integer
(negative ones included) is truthy. -/
def pyOr (x d : Int) : Int := if x = 0 then d else x

/-- The class defaults (client.py:19-22). -/
def SINGLE_SUBMIT_SIZE : Int := 5000

/-- Default pool submit size (client.py:21). -/
def POOL_SUBMIT_SIZE : Int := 50000

/-- Default queue ceiling (client.py:22). -/
def QUEUE_MAX_SIZE : Int := 100000

/-- Sizes retained by one `FastGET` instance after `__init__`
(client.py:34-37); `ncpus` stands for `os.cpu_count() or 1`. -/
structure InitSizes where
  numWorkers : Int
  singleSubmitSize : Int
  poolSubmitSize : Int
  queueMaxSize : Int
  deriving DecidableEq, Repr

/-- Embedding of `FastGET.__init__` (client.py:24-37): each argument is defaulted with
`or`, so `0` silently becomes the class default and negative values pass
through unchanged. -/
def fastgetInit (ncpus nw s p q : Int) : InitSizes :=
  { numWorkers := pyOr nw ncpus,
    singleSubmitSize := pyOr s SINGLE_SUBMIT_SIZE,
    poolSubmitSize := pyOr p POOL_SUBMIT_SIZE,
    queueMaxSize := pyOr q QUEUE_MAX_SIZE }

/-- Consuming the first chunk of `FastGET._chunker(iterable, size)` with an
`Int` size.  On an empty iterable the generator just finishes: no chunk and no
error, whatever the size.  Otherwise the first yield constructs
`itertools.islice(iterator, size - 1)`, which raises `ValueError` when
`size - 1` is negative; for positive sizes the fully-consumed chunk list is
`chunkList`. -/
def chunkerFirstPull (size : Int) (l : List α) : Except Unit (List (List α)) :=
  if l.isEmpty then .ok []
  else if size - 1 < 0 then .error ()
  else .ok (chunkList size.toNat l)

/-! ## Units of work: `src/fastget/client.py` vs `src/src/fastget/client.py`

Both files run the same outer loop: pool chunks of `pool_submit_size`, each
re-split by an inner `_chunker` into the units handed to
`executor.submit(Requester.run, urls)`.  They differ in one token: the inner
chunker of `src/fastget/client.py:103` uses `self.single_submit_size`, the
one of `src/src/fastget/client.py:75` uses `self.pool_submit_size`. -/

/-- Units of work submitted per worker invocation by `src/fastget/client.py`
(inner chunker size = `single_submit_size`), for a fully submitted input. -/
def unitsOfWork (single pool : Nat) (l : List Req) : List (List Req) :=
  ((chunkList pool l).map (chunkList single)).flatten

/-- Units of work submitted per worker invocation by
`src/src/fastget/client.py` (inner chunker size = `pool_submit_size`,
src/src/fastget/client.py:75), for a fully submitted input. -/
def unitsOfWorkSrcSrc (_single pool : Nat) (l : List Req) : List (List Req) :=
  ((chunkList pool l).map (chunkList pool)).flatten

/-! ## Lemmas about the chunker -/

theorem chunkListF_flatten (s : Nat) :
    ∀ (fuel : Nat) (l : List α), l.length ≤ fuel →
      (chunkListF s fuel l).flatten = l := by
  intro fuel
  induction fuel with
  | zero =>
    intro l hl
    cases l with
    | nil => rfl
    | cons x xs => simp at hl
  | succ n ih =>
    intro l hl
    cases l with
    | nil => rfl
    | cons x xs =>
      have hd : (xs.drop (s - 1)).length ≤ n := by
        rw [List.length_drop]
        simp only [List.length_cons] at hl
        omega
      simp only [chunkListF, List.flatten_cons]
      rw [ih (xs.drop (s - 1)) hd, List.cons_append, List.take_append_drop]

theorem chunkList_flatten (s : Nat) (l : List α) : (chunkList s l).flatten = l :=
  chunkListF_flatten s l.length l le_rfl

theorem chunkListF_mem (s : Nat) (hs : 0 < s) :
    ∀ (fuel : Nat) (l : List α), ∀ c ∈ chunkListF s fuel l,
      c.length ≤ s ∧ c ≠ [] := by
  intro fuel
  induction fuel with
  | zero =>
    intro l c hc
    cases l with
    | nil => simp [chunkListF] at hc
    | cons x xs => simp [chunkListF] at hc
  | succ n ih =>
    intro l c hc
    cases l with
    | nil => simp [chunkListF] at hc
    | cons x xs =>
      simp only [chunkListF, List.mem_cons] at hc
      rcases hc with hc | hc
      · subst hc
        constructor
        · simp only [List.length_cons, List.length_take]
          omega
        · simp
      · exact ih _ c hc

theorem chunkList_mem (s : Nat) (hs : 0 < s) (l : List α) :
    ∀ c ∈ chunkList s l, c.length ≤ s ∧ c ≠ [] :=
  chunkListF_mem s hs l.length l

/-- A nonempty list no longer than the chunk size is a single chunk. -/
theorem chunkList_of_short (s : Nat) (l : List α) (hne : l ≠ []) (hlen : l.length ≤ s) :
    chunkList s l = [l] := by
  cases l with
  | nil => exact absurd rfl hne
  | cons x xs =>
    have hxs : xs.length ≤ s - 1 := by
      simp only [List.length_cons] at hlen
      omega
    simp only [chunkList, List.length_cons, chunkListF]
    rw [List.take_of_length_le hxs, List.drop_of_length_le hxs]
    cases xs <;> rfl

/-- Length of the last chunk: the full `s` when `s` divides the input length,
otherwise the remainder. -/
theorem chunkListF_getLast (s : Nat) (hs : 0 < s) :
    ∀ (fuel : Nat) (l : List α), l.length ≤ fuel → l ≠ [] →
      ∃ c, (chunkListF s fuel l).getLast? = some c ∧
        c.length = (if l.length % s = 0 then s else l.length % s) := by
  intro fuel
  induction fuel with
  | zero =>
    intro l hl hne
    cases l with
    | nil => exact absurd rfl hne
    | cons x xs => simp at hl
  | succ n ih =>
    intro l hl hne
    cases l with
    | nil => exact absurd rfl hne
    | cons x xs =>
      by_cases hshort : xs.length ≤ s - 1
      · refine ⟨x :: xs.take (s - 1), ?_, ?_⟩
        · simp only [chunkListF]
          rw [List.drop_of_length_le hshort]
          cases n <;> rfl
        · rw [List.take_of_length_le hshort]
          simp only [List.length_cons]
          rcases Nat.lt_or_ge (xs.length + 1) s with hlt | hge
          · rw [if_neg]
            · rw [Nat.mod_eq_of_lt hlt]
            · rw [Nat.mod_eq_of_lt hlt]; omega
          · have heq : xs.length + 1 = s := by omega
            rw [heq, Nat.mod_self, if_pos rfl]
      · have hlong : s ≤ xs.length + 1 := by omega
        have hdne : xs.drop (s - 1) ≠ [] := by
          rw [Ne, List.drop_eq_nil_iff]
          omega
        have hdlen : (xs.drop (s - 1)).length ≤ n := by
          rw [List.length_drop]
          simp only [List.length_cons] at hl
          omega
        obtain ⟨c, hc, hclen⟩ := ih (xs.drop (s - 1)) hdlen hdne
        refine ⟨c, ?_, ?_⟩
        · simp only [chunkListF]
          obtain ⟨d, ds, hds⟩ : ∃ d ds, chunkListF s n (xs.drop (s - 1)) = d :: ds := by
            cases hrest : chunkListF s n (xs.drop (s - 1)) with
            | nil => rw [hrest] at hc; simp at hc
            | cons d ds => exact ⟨d, ds, rfl⟩
          rw [hds, List.getLast?_cons_cons, ← hds, hc]
        · have hmod : (xs.length + 1) % s = (xs.drop (s - 1)).length % s := by
            rw [List.length_drop, Nat.mod_eq_sub_mod (by omega : xs.length + 1 ≥ s)]
            congr 1
            omega
          simp only [List.length_cons, hmod]
          exact hclen

/-- C7: for every positive size `s`, `FastGET._chunker` splits the input into
chunks whose in-order concatenation is the input, each chunk nonempty of at
most `s` items; an empty input yields zero chunks, and a nonempty input ends
with a final chunk of `l.length % s` items when the length is not a multiple
of `s` (and a full `s` otherwise). -/
theorem chunker_partitions (l : List α) (s : Nat) (hs : 0 < s) :
    (chunkList s l).flatten = l
    ∧ (∀ c ∈ chunkList s l, c.length ≤ s ∧ c ≠ [])
    ∧ (l = [] → chunkList s l = [])
    ∧ (l ≠ [] → ∃ c, (chunkList s l).getLast? = some c ∧
        c.length = (if l.length % s = 0 then s else l.length % s)) := by
  refine ⟨chunkList_flatten s l, chunkList_mem s hs l, ?_, ?_⟩
  · rintro rfl; rfl
  · exact chunkListF_getLast s hs l.length l le_rfl

/-- Witness for `chunker_partitions` at `l = [1,2,3]`, `s = 2`: the chunks are
`[[1,2],[3]]`, and `3 % 2 = 1` is the length of the final short chunk. -/
theorem chunker_partitions_witness :
    (chunkList 2 [1, 2, 3]).flatten = [1, 2, 3]
    ∧ (∀ c ∈ chunkList 2 [1, 2, 3], c.length ≤ 2 ∧ c ≠ [])
    ∧ ([1, 2, 3] = ([] : List Nat) → chunkList 2 [1, 2, 3] = [])
    ∧ ([1, 2, 3] ≠ ([] : List Nat) → ∃ c, (chunkList 2 [1, 2, 3]).getLast? = some c ∧
        c.length = (if [1, 2, 3].length % 2 = 0 then 2 else [1, 2, 3].length % 2)) :=
  chunker_partitions [1, 2, 3] 2 (by decide)

/-! ## Outcomes of the worker (C2, C4, C9) -/

/-- C2 (code bug): the worker does not convert failures into
`status_code = 500` Responses — every non-success termination makes an
exception escape `Requester.run`.  An unparseable body enters the `except`
block, whose `logger.exception(e)` itself raises `NameError` (the name
`logger` is unbound there; even with it bound, the `return` would hit the
unbound local `response_json`); a connection failure and a timeout are raised
outside the `try` and propagate unhandled.  The tests of the repository itself
(`src/tests/test_client.py`) assert the claimed conversion
(`status_code == 500` with `exception_type`/`exception_detail`/
`exception_traceback`), which this code cannot produce. -/
theorem worker_raises_instead_of_500 :
    Requester.run [(1, .response 200 "garbage" false)] = .error (.nameError ("logger"))
    ∧ Requester.run [(2, .connectError ("Cannot connect to host"))]
        = .error (.clientConnectorError ("Cannot connect to host"))
    ∧ Requester.run [(3, .timeoutError)] = .error .timeoutError :=
  ⟨rfl, rfl, rfl⟩

/-- C4 counterexample: a GET answered `HTTP 200` with body
`-- status ok --` and one answered `HTTP 500` with the same body yield the
*identical* value `(id, body)` — `client.py:176` returns the two-tuple
`(id_, response_json)`, so the yielded result carries no `status_code`
component at all, contradicting `Response(id, 200, body)`. -/
theorem response_drops_status_code :
    Requester.makeRequestAsync 1 (.response 200 "status-ok" true) = .ok (1, "status-ok")
    ∧ Requester.makeRequestAsync 1 (.response 500 "status-ok" true) = .ok (1, "status-ok") :=
  ⟨rfl, rfl⟩

/-- C4 amended: for every request whose GET receives a well-formed response
with a parseable JSON body, the worker outcome is the pair of the request
id and the parsed body; the HTTP status is discarded. -/
theorem response_is_id_and_body (id_ status : Nat) (body : String) :
    Requester.makeRequestAsync id_ (.response status body true) = .ok (id_, body) :=
  rfl

/-- C9 counterexample: a chunk of two requests in which the second cannot
connect produces no outcome list at all — `asyncio.gather` (called without
`return_exceptions=True`) propagates the failure, the successful sibling
outcome is discarded, and `Requester.run` raises instead of returning the two
outcomes the claim requires. -/
theorem gather_aborts_chunk_on_failure :
    Requester.run [(0, .response 200 "ok" true), (1, .connectError ("Cannot connect to host"))]
      = .error (.clientConnectorError ("Cannot connect to host")) :=
  rfl

/-- C9 amended: when every request of the chunk receives a well-formed
response with a parseable body, `Requester.run` returns the complete list of
exactly `k` outcomes at once, the `i`-th carrying the id of the `i`-th
request of the chunk; but any single failure aborts the result of the whole chunk
(see the counterexample). -/
theorem run_complete_when_all_parseable (chunk : List (Nat × Transport))
    (h : ∀ p ∈ chunk, p.2.parsedOk = true) :
    Requester.run chunk = .ok (chunk.map fun p => (p.1, p.2.bodyOf)) := by
  induction chunk with
  | nil => rfl
  | cons p rest ih =>
    have hp : p.2.parsedOk = true := h p (List.mem_cons_self p rest)
    have hrest := ih fun q hq => h q (List.mem_cons_of_mem p hq)
    obtain ⟨st, b, hpt⟩ : ∃ st b, p.2 = .response st b true := by
      cases hpt : p.2 with
      | response st b pa =>
        cases pa with
        | true => exact ⟨st, b, rfl⟩
        | false => rw [hpt] at hp; simp [Transport.parsedOk] at hp
      | connectError d => rw [hpt] at hp; simp [Transport.parsedOk] at hp
      | timeoutError => rw [hpt] at hp; simp [Transport.parsedOk] at hp
    have hmk : Requester.makeRequestAsync p.1 p.2 = .ok (p.1, b) := by
      rw [hpt]; rfl
    have hb : p.2.bodyOf = b := by
      rw [hpt]; rfl
    simp only [Requester.run] at hrest ⊢
    rw [List.map_cons, List.map_cons, hmk, hb]
    simp only [asyncioGather, hrest]

/-- Witness for `run_complete_when_all_parseable`: a two-request chunk, both
parseable, yields both outcomes in order. -/
theorem run_complete_witness :
    Requester.run [(7, Transport.response 200 "payload" true),
                   (8, Transport.response 500 "other" true)]
      = .ok ([(7, Transport.response 200 "payload" true),
              (8, Transport.response 500 "other" true)].map fun p => (p.1, p.2.bodyOf)) :=
  run_complete_when_all_parseable _ (by decide)

/-! ## Bookkeeping of the dispatch loop (C1, C3, C5, C6) -/

/-- C1 (code bug): with `single_submit_size = pool_submit_size = 1`,
`queue_max_size = 1`, input `[(0,"a"), (1,"b")]` and a completion schedule in
which no worker finishes before the input is exhausted, the call submits only
request `0` and yields exactly one result — request `1` reaches a pool-chunk
boundary while `urls_in_queue >= queue_max_size` (client.py:102), the body is
skipped, and the unconsumed lazy chunk drops it from the shared iterator
forever.  The claim (and spec §8) requires exactly `2` results, one per id. -/
theorem dispatch_drops_request_when_queue_full :
    (runGet ⟨1, 1, 1⟩ (fun _ _ => "r") [0, 0] [(0, "a"), (1, "b")]).yielded = [(0, "r")]
    ∧ (runGet ⟨1, 1, 1⟩ (fun _ _ => "r") [0, 0] [(0, "a"), (1, "b")]).submittedTotal = 1 :=
  ⟨rfl, rfl⟩

/-- C3 counterexample: with `queue_max_size = 1` and
`single_submit_size = pool_submit_size = 2`, submitting the first pool chunk
(legal since `urls_in_queue = 0 < 1`) raises `urls_in_queue` to `2`: the
outstanding count exceeds `queue_max_size = 1`. -/
theorem inqueue_exceeds_qmax :
    (runGet ⟨2, 2, 1⟩ (fun _ _ => "r") [0] [(0, "a"), (1, "b")]).maxInQueue = 2
    ∧ ¬ ((2 : Int) ≤ 1) :=
  ⟨rfl, by decide⟩

/-- C5 counterexample: a first stream that has submitted one request and not
yet received or yielded anything (`urls_in_queue = 1`, buffer empty,
`total_processed_requests = 0`) is exactly the "unconsumed state" window the
claim covers, yet the guard `if self.responses or
self.total_processed_requests` (client.py:82) does not fire on a second call
— no usage error is raised (the second generator instead dies at the
`NameError` of client.py:87). -/
theorem reuse_not_rejected_before_first_result :
    (runPool ⟨1, 1, 10⟩ (fun _ _ => "r") [0] [(0, "a")] initState).inQueue = 1
    ∧ reuseGuardFires (runPool ⟨1, 1, 10⟩ (fun _ _ => "r") [0] [(0, "a")] initState) = false
    ∧ (getStart (runPool ⟨1, 1, 10⟩ (fun _ _ => "r") [0] [(0, "a")] initState)).1
        = GetStartOutcome.nameError :=
  ⟨rfl, rfl, rfl⟩

/-- C5 amended: the second call is rejected (and the state of the first stream
left unchanged) exactly when the pending buffer of the first stream is nonempty or its
processed counter is nonzero — not throughout the whole window in which the
first stream holds unconsumed state. -/
theorem reuse_rejected_when_state_nonempty (st : DispatchState)
    (h : st.responses ≠ [] ∨ st.processed ≠ 0) :
    getStart st = (GetStartOutcome.usageError, st) := by
  have hg : reuseGuardFires st = true := by
    rcases h with h | h <;> simp [reuseGuardFires, List.isEmpty_iff, h]
  simp [getStart, hg]

/-- Witness for `reuse_rejected_when_state_nonempty`: a state with one
processed request rejects the second call and is returned unchanged. -/
theorem reuse_rejected_witness :
    getStart { initState with processed := 3 }
      = (GetStartOutcome.usageError, { initState with processed := 3 }) :=
  reuse_rejected_when_state_nonempty _ (Or.inr (by decide))

/-- C6: `logger` is bound in the local scope of `FastGET.__init__`
(client.py:38) but in neither the module scope of `client.py` nor the local
scope of `get` at line 87, so on a fresh client the first consumption of the
generator passes the reuse guard and raises `NameError` at the logging
statements — before `urls_in_queue` is initialised or anything is submitted
(lines 93-108 are unreachable), for every input, since lines 82-91 do not
touch `ids_and_urls`. -/
theorem get_first_consumption_nameerror :
    (getStart initState).1 = GetStartOutcome.nameError
    ∧ resolvesAtGetLogging "logger" = false
    ∧ ("logger" ∈ initLocalNames ∧ "logger" ∉ clientModuleNames) :=
  ⟨rfl, by decide, by decide, by decide⟩

/-! ## Configuration errors (C8) -/

/-- C8 counterexample: passing `0` for every size is not treated as a
configuration error — the `x or DEFAULT` of `__init__` silently replaces each zero
with the class default, and the chunker then happily produces chunks, so
requests are issued normally. -/
theorem zero_sizes_silently_defaulted :
    fastgetInit 4 0 0 0 0 =
      { numWorkers := 4, singleSubmitSize := 5000,
        poolSubmitSize := 50000, queueMaxSize := 100000 }
    ∧ chunkerFirstPull (fastgetInit 4 0 0 0 0).poolSubmitSize [((0 : Nat), "a")]
        = .ok [[(0, "a")]] :=
  ⟨rfl, rfl⟩

/-! ## Invariants of the dispatch loop -/

theorem foldl_submitChunk_inQueue (f : Nat → String → String) :
    ∀ (cs : List (List Req)) (st : DispatchState),
      (cs.foldl (submitChunk f) st).inQueue
        = st.inQueue + ((cs.map List.length).sum : Int) := by
  intro cs
  induction cs with
  | nil => intro st; simp
  | cons c cs ih =>
    intro st
    rw [List.foldl_cons, ih]
    simp only [submitChunk, List.map_cons, List.sum_cons]
    push_cast
    ring

theorem foldl_submitChunk_maxInQueue (f : Nat → String → String) :
    ∀ (cs : List (List Req)) (st : DispatchState),
      (cs.foldl (submitChunk f) st).maxInQueue
        ≤ max st.maxInQueue (st.inQueue + ((cs.map List.length).sum : Int)) := by
  intro cs
  induction cs with
  | nil => intro st; simp
  | cons c cs ih =>
    intro st
    rw [List.foldl_cons]
    refine le_trans (ih (submitChunk f st c)) ?_
    simp only [submitChunk, List.map_cons, List.sum_cons, Nat.cast_add]
    refine max_le (max_le (le_max_left _ _) ?_) ?_ <;>
      exact le_trans (by omega) (le_max_right _ _)

/-- Sum of the chunk lengths is the input length. -/
theorem chunkList_length_sum (s : Nat) (l : List α) :
    ((chunkList s l).map List.length).sum = l.length := by
  rw [← List.length_flatten, chunkList_flatten]

theorem deliver_inQueue (k : Nat) (st : DispatchState) :
    (deliver k st).inQueue = st.inQueue := rfl

theorem deliver_maxInQueue (k : Nat) (st : DispatchState) :
    (deliver k st).maxInQueue = st.maxInQueue := rfl

theorem drain_inQueue_le (st : DispatchState) : (drain st).inQueue ≤ st.inQueue := by
  simp only [drain]
  omega

theorem drain_maxInQueue (st : DispatchState) : (drain st).maxInQueue = st.maxInQueue := rfl

/-- Through the whole dispatch loop, `urls_in_queue` (and its high-water mark)
stays below `queue_max_size - 1 + pool_submit_size`: submission of a pool
chunk only starts when `urls_in_queue ≤ queue_max_size - 1` and adds at most
`pool_submit_size` requests. -/
theorem runPoolF_inQueue_bounded (cfg : Config) (f : Nat → String → String)
    (hp : 0 < cfg.pool) :
    ∀ (fuel : Nat) (sched : List Nat) (input : List Req) (st : DispatchState),
      st.inQueue ≤ cfg.qmax - 1 + cfg.pool →
      st.maxInQueue ≤ cfg.qmax - 1 + cfg.pool →
      (runPoolF cfg f fuel sched input st).inQueue ≤ cfg.qmax - 1 + cfg.pool
      ∧ (runPoolF cfg f fuel sched input st).maxInQueue ≤ cfg.qmax - 1 + cfg.pool := by
  intro fuel
  induction fuel with
  | zero => intro sched input st h1 h2; exact ⟨h1, h2⟩
  | succ n ih =>
    intro sched input st h1 h2
    cases input with
    | nil => exact ⟨h1, h2⟩
    | cons r rs =>
      rw [runPoolF]
      split
      · next hlt =>
        set ck := r :: rs.take (cfg.pool - 1) with hck
        set st1 := (chunkList cfg.single ck).foldl (submitChunk f) st with hst1
        have hcklen : (ck.length : Int) ≤ cfg.pool := by
          rw [hck]
          simp only [List.length_cons, List.length_take]
          have : min (cfg.pool - 1) rs.length ≤ cfg.pool - 1 := Nat.min_le_left _ _
          omega
        have hsum : ((chunkList cfg.single ck).map List.length).sum = ck.length :=
          chunkList_length_sum cfg.single ck
        have hq1 : st1.inQueue ≤ cfg.qmax - 1 + cfg.pool := by
          rw [hst1, foldl_submitChunk_inQueue, hsum]
          omega
        have hm1 : st1.maxInQueue ≤ cfg.qmax - 1 + cfg.pool := by
          refine le_trans (foldl_submitChunk_maxInQueue f _ st) ?_
          rw [hsum]
          refine max_le h2 ?_
          omega
        refine ih sched.tail (rs.drop (cfg.pool - 1)) _ ?_ ?_
        · calc (drain (deliver (sched.headD 0) st1)).inQueue
              ≤ (deliver (sched.headD 0) st1).inQueue := drain_inQueue_le _
            _ = st1.inQueue := deliver_inQueue _ _
            _ ≤ _ := hq1
        · rw [drain_maxInQueue, deliver_maxInQueue]
          exact hm1
      · refine ih sched.tail rs _ ?_ ?_
        · calc (drain (deliver (sched.headD 0) st)).inQueue
              ≤ (deliver (sched.headD 0) st).inQueue := drain_inQueue_le _
            _ = st.inQueue := deliver_inQueue _ _
            _ ≤ _ := h1
        · rw [drain_maxInQueue, deliver_maxInQueue]
          exact h2

theorem finalPops_maxInQueue : ∀ (fuel : Nat) (st : DispatchState),
    (finalPops fuel st).maxInQueue = st.maxInQueue := by
  intro fuel
  induction fuel with
  | zero => intro st; rfl
  | succ n ih =>
    intro st
    rw [finalPops]
    split
    · rfl
    · split
      · rfl
      · rw [ih]
        rfl

theorem finishGet_maxInQueue (st : DispatchState) :
    (finishGet st).maxInQueue = st.maxInQueue := by
  rw [finishGet, finalPops_maxInQueue]
  rfl

/-- C3 amended: for every positive configuration, `urls_in_queue` never
exceeds `queue_max_size - 1 + pool_submit_size` at any step of the call (the
ceiling is checked only before a whole pool chunk is submitted, so the
outstanding count can overshoot `queue_max_size` by up to
`pool_submit_size - 1`, but never more). -/
theorem inqueue_bounded (cfg : Config) (f : Nat → String → String)
    (sched : List Nat) (input : List Req) (hq : 0 < cfg.qmax) (hp : 0 < cfg.pool) :
    (runGet cfg f sched input).maxInQueue ≤ cfg.qmax - 1 + cfg.pool := by
  have h := runPoolF_inQueue_bounded cfg f hp input.length sched input initState
    (by simp only [initState]; omega) (by simp only [initState]; omega)
  rw [runGet, finishGet_maxInQueue]
  exact h.2

/-- Witness for `inqueue_bounded` at the configuration of the counterexample
(`single = pool = 2`, `qmax = 1`): the high-water mark is at most
`1 - 1 + 2 = 2`. -/
theorem inqueue_bounded_witness :
    (0 : Int) < 1 ∧ (0 : Nat) < 2
    ∧ (runGet ⟨2, 2, 1⟩ (fun _ _ => "q") [0] [(0, "a"), (1, "b")]).maxInQueue ≤ 2 := by
  refine ⟨by decide, by decide, ?_⟩
  have h := inqueue_bounded ⟨2, 2, 1⟩ (fun _ _ => "q") [0] [(0, "a"), (1, "b")]
    (by decide) (by decide)
  exact le_of_le_of_eq h (by decide)

/-! ## Behaviour under non-positive configuration values (C8) -/

/-- With a non-positive `queue_max_size`, the guard `urls_in_queue <
queue_max_size` is false from the start and stays false: nothing is ever
submitted, delivered or yielded, and no error is raised. -/
theorem runPoolF_qmax_nonpos (cfg : Config) (f : Nat → String → String)
    (hq : cfg.qmax ≤ 0) :
    ∀ (fuel : Nat) (sched : List Nat) (input : List Req) (st : DispatchState),
      st.inQueue = 0 → st.inFlight = [] → st.responses = [] →
      (runPoolF cfg f fuel sched input st).inQueue = 0
      ∧ (runPoolF cfg f fuel sched input st).inFlight = []
      ∧ (runPoolF cfg f fuel sched input st).responses = []
      ∧ (runPoolF cfg f fuel sched input st).submittedTotal = st.submittedTotal
      ∧ (runPoolF cfg f fuel sched input st).yielded = st.yielded := by
  intro fuel
  induction fuel with
  | zero => intro sched input st h1 h2 h3; exact ⟨h1, h2, h3, rfl, rfl⟩
  | succ n ih =>
    intro sched input st h1 h2 h3
    cases input with
    | nil => exact ⟨h1, h2, h3, rfl, rfl⟩
    | cons r rs =>
      rw [runPoolF, if_neg (by rw [h1]; exact fun h => absurd (lt_of_lt_of_le h hq) (lt_irrefl 0))]
      have e1 : (drain (deliver (sched.headD 0) st)).inQueue = 0 := by
        simp [drain, deliver, h1, h2, h3]
      have e2 : (drain (deliver (sched.headD 0) st)).inFlight = [] := by
        simp [drain, deliver, h2]
      have e3 : (drain (deliver (sched.headD 0) st)).responses = [] := by
        simp [drain, deliver]
      have e4 : (drain (deliver (sched.headD 0) st)).submittedTotal = st.submittedTotal := by
        simp [drain, deliver]
      have e5 : (drain (deliver (sched.headD 0) st)).yielded = st.yielded := by
        simp [drain, deliver, h2, h3]
      obtain ⟨g1, g2, g3, g4, g5⟩ := ih sched.tail rs (drain (deliver (sched.headD 0) st)) e1 e2 e3
      exact ⟨g1, g2, g3, by rw [g4, e4], by rw [g5, e5]⟩

/-- C8 amended: none of the claimed fail-fast behaviour exists.  A zero
`single_submit_size` / `pool_submit_size` / `queue_max_size` is silently
replaced by the class default (`x or DEFAULT`, see the counterexample); a
*negative* chunk size does raise (`islice(iterator, size - 1)` with a negative
stop raises `ValueError`), though only at the first pull of the chunker on a
nonempty input — which is still before any request is submitted; and a
non-positive `queue_max_size` raises nothing at all: the dispatch loop simply
never submits any work and yields nothing. -/
theorem nonpositive_sizes_behaviour
    (d s : Int) (hs : s < 0) (l : List Req) (hl : l ≠ [])
    (cfg : Config) (hq : cfg.qmax ≤ 0)
    (f : Nat → String → String) (sched : List Nat) (input : List Req) :
    pyOr 0 d = d
    ∧ chunkerFirstPull s l = .error ()
    ∧ (runGet cfg f sched input).submittedTotal = 0
    ∧ (runGet cfg f sched input).yielded = [] := by
  have hrun := runPoolF_qmax_nonpos cfg f hq input.length sched input initState rfl rfl rfl
  obtain ⟨g1, g2, g3, g4, g5⟩ := hrun
  have hfin : ∀ st : DispatchState, st.inFlight = [] → st.responses = [] →
      finishGet st = { st with inFlight := [], responses := st.responses ++ [] } := by
    intro st u1 u2
    simp only [finishGet, deliverAll, u1, u2]
    rfl
  refine ⟨rfl, ?_, ?_, ?_⟩
  · rw [chunkerFirstPull, if_neg (show ¬ l.isEmpty = true by simpa using hl),
      if_pos (show s - 1 < 0 by omega)]
  · rw [runGet, runPool, hfin _ g2 g3]
    simpa using g4
  · rw [runGet, runPool, hfin _ g2 g3]
    simpa using g5

/-- Witness for `nonpositive_sizes_behaviour` at `d = 7`, `s = -1`,
`l = [(0, "a")]`, configuration `⟨1, 1, -1⟩`. -/
theorem nonpositive_sizes_witness :
    pyOr 0 7 = 7
    ∧ chunkerFirstPull (-1) [((0 : Nat), "a")] = .error ()
    ∧ (runGet ⟨1, 1, -1⟩ (fun _ _ => "r") [0] [(0, "a")]).submittedTotal = 0
    ∧ (runGet ⟨1, 1, -1⟩ (fun _ _ => "r") [0] [(0, "a")]).yielded = [] :=
  nonpositive_sizes_behaviour 7 (-1) (by decide) [((0 : Nat), "a")] (by decide)
    ⟨1, 1, -1⟩ (by decide) (fun _ _ => "r") [0] [(0, "a")]

/-! ## Refinement: `src/fastget/client.py` vs `src/src/fastget/client.py`
(C10) -/

/-- C10 counterexample: with `single_submit_size = 1`, `pool_submit_size = 2`
and two requests, `src/src/fastget/client.py` submits one unit of two requests
(its inner chunker re-splits the pool chunk by `pool_submit_size`,
src/src/fastget/client.py:75) while `src/fastget/client.py` submits two units
of one — the partitions differ, and the `src/src` unit has 2 >
`single_submit_size` requests. -/
theorem units_of_work_differ :
    unitsOfWorkSrcSrc 1 2 [(0, "a"), (1, "b")] = [[(0, "a"), (1, "b")]]
    ∧ unitsOfWork 1 2 [(0, "a"), (1, "b")] = [[(0, "a")], [(1, "b")]] :=
  ⟨rfl, rfl⟩

/-- C10 amended: every unit submitted by `src/fastget/client.py` has at most
`single_submit_size` requests, but a unit submitted by
`src/src/fastget/client.py` is only bounded by `pool_submit_size`; the two
embeddings produce the same units whenever `pool_submit_size ≤
single_submit_size` (each pool chunk then fits in a single unit for both). -/
theorem units_of_work_bounds (l : List Req) (s p : Nat) (hs : 0 < s) (hp : 0 < p) :
    (∀ u ∈ unitsOfWork s p l, u.length ≤ s)
    ∧ (∀ u ∈ unitsOfWorkSrcSrc s p l, u.length ≤ p)
    ∧ (p ≤ s → unitsOfWork s p l = unitsOfWorkSrcSrc s p l) := by
  refine ⟨?_, ?_, ?_⟩
  · intro u hu
    rw [unitsOfWork, List.mem_flatten] at hu
    obtain ⟨cs, hcs, hucs⟩ := hu
    rw [List.mem_map] at hcs
    obtain ⟨c, _, rfl⟩ := hcs
    exact (chunkList_mem s hs c u hucs).1
  · intro u hu
    rw [unitsOfWorkSrcSrc, List.mem_flatten] at hu
    obtain ⟨cs, hcs, hucs⟩ := hu
    rw [List.mem_map] at hcs
    obtain ⟨c, _, rfl⟩ := hcs
    exact (chunkList_mem p hp c u hucs).1
  · intro hps
    rw [unitsOfWork, unitsOfWorkSrcSrc]
    congr 1
    refine List.map_congr_left fun c hc => ?_
    obtain ⟨hlen, hne⟩ := chunkList_mem p hp l c hc
    rw [chunkList_of_short s c hne (le_trans hlen hps),
      chunkList_of_short p c hne hlen]

/-- Witness for `units_of_work_bounds` at `l = [(0,"a"),(1,"b"),(2,"c")]`,
`s = 3`, `p = 2`. -/
theorem units_of_work_bounds_witness :
    (∀ u ∈ unitsOfWork 3 2 [(0, "a"), (1, "b"), (2, "c")], u.length ≤ 3)
    ∧ (∀ u ∈ unitsOfWorkSrcSrc 3 2 [(0, "a"), (1, "b"), (2, "c")], u.length ≤ 2)
    ∧ (2 ≤ 3 → unitsOfWork 3 2 [(0, "a"), (1, "b"), (2, "c")]
        = unitsOfWorkSrcSrc 3 2 [(0, "a"), (1, "b"), (2, "c")]) :=
  units_of_work_bounds [(0, "a"), (1, "b"), (2, "c")] 3 2 (by decide) (by decide)

end FastGETSpec
